import Mathlib

/-!
Shallow embedding of the zcert local certificate authority (package
`zgo.at/zcert` plus its `truststore` subpackage) and proofs about it.

Conventions of the embedding:
* Go errors are `Option String` (`none` = nil error) or `Except String _`.
* Randomness (`crypto/rand`) is an oracle stream `rng : Nat → Nat` threaded
  through by a position counter; each draw consumes one position.
* The on-disk store is a small record (`FS`) holding the two files the
  authority manages plus the state of their parent directory.
* PEM/DER serialisation round-trips in Go (`x509.ParseCertificate` after
  `x509.CreateCertificate`, PKCS#8 marshal/parse), so files store the
  structured values themselves.

Definitions come first, theorems at the end of the file.
-/

namespace Zcert

/-- Errors aggregated by the `Group` type (copy of `zgo.at/errors`,
`src/unnamed/part_004`).  `maxSize`, `errs` and `nerrs` mirror the Go
fields `MaxSize`, `errs`, `nerrs`; the mutex is irrelevant in a
sequential embedding. -/
structure GoGroup where
  maxSize : Nat
  errs : List String
  nerrs : Nat
deriving Repr, DecidableEq

/-- `NewGroup(maxSize)` from `part_004`: empty error group. -/
def NewGroup (maxSize : Nat) : GoGroup :=
  { maxSize := maxSize, errs := [], nerrs := 0 }

/-- `Group.Len` from `part_004`. -/
def GoGroup.len (g : GoGroup) : Nat := g.errs.length

/-- `Group.Append` from `part_004`: ignores a nil error (returns `false`);
otherwise bumps `nerrs` and records the error while under `MaxSize`
(`MaxSize = 0` means no limit), returning `true`. -/
def GoGroup.append (g : GoGroup) (e : Option String) : GoGroup × Bool :=
  match e with
  | none => (g, false)
  | some s =>
    if g.maxSize = 0 || g.errs.length < g.maxSize then
      ({ g with errs := g.errs ++ [s], nerrs := g.nerrs + 1 }, true)
    else
      ({ g with nerrs := g.nerrs + 1 }, true)

/-- `Group.ErrorOrNil` from `part_004`: `nil` when no error was recorded,
the group itself otherwise. -/
def GoGroup.errorOrNil (g : GoGroup) : Option GoGroup :=
  if g.len = 0 then none else some g

/-- Errors returned by `CARoot.Install` / `CARoot.Uninstall`: either the
plain `errors.New("no compatible truststores found")` or the aggregate
`*Group`. -/
inductive FanoutErr where
  | plain (msg : String)
  | group (g : GoGroup)
deriving Repr, DecidableEq

/-- The trust-store fan-out shared by `CARoot.Install` and
`CARoot.Uninstall` (`src/zcert.go` lines 209–253), after the root is
loaded.  `results` is the per-backend outcome of `s.Install`/`s.Uninstall`
for each store discovered by `truststore.Find`, in order.  An empty list
of stores yields the plain error; otherwise every result is appended to a
fresh `NewGroup(0)` and `ErrorOrNil` is returned. -/
def installFanout (results : List (Option String)) : Option FanoutErr :=
  if results.isEmpty then
    some (.plain "no compatible truststores found")
  else
    (GoGroup.errorOrNil (results.foldl (fun g r => (GoGroup.append g r).1) (NewGroup 0))).map .group

/-- Subject fields of a certificate (`pkix.Name`) that zcert sets. -/
structure GoSubject where
  organization : List String
  organizationalUnit : List String
  commonName : String
deriving Repr, DecidableEq

/-- A parsed X.509 certificate, restricted to the fields the claims are
about. -/
structure GoCert where
  serialNumber : Nat
  subject : GoSubject
  pubKey : Nat
  isCA : Bool
deriving Repr, DecidableEq

/-- A P-256 private key, identified by the random draw that produced it
(`generateKey`, `src/zcert.go` line 438). -/
structure GoPrivKey where
  draw : Nat
deriving Repr, DecidableEq

/-- Public-key derivation `privKey.(crypto.Signer).Public()`; injective
for ECDSA keys. -/
def pubOf (k : GoPrivKey) : Nat := k.draw

/-- `x509.CreateCertificate(rand, tpl, parent, pub, priv)` composed with
`x509.ParseCertificate`: the encoded certificate carries the template's
serial number and subject and the supplied public key (neither parent nor
signing key changes these fields). -/
def createCertificate (tpl : GoCert) (pub : Nat) : GoCert :=
  { tpl with pubKey := pub }

/-- The subject `Create` puts in the root template (`src/zcert.go` lines
104–112); `uh` is the result of `userAndHostname()`. -/
def rootSubject (uh : String) : GoSubject :=
  { organization := ["zcert development CA"]
    organizationalUnit := [uh]
    commonName := "zcert " ++ uh }

/-- On-disk state of the authority's storage directory (`<dir>/zcert`
holding `rootCA.pem` and `rootCA-key.pem`).  `otherEntries` counts
directory entries besides those two files; `os.Remove` on the directory
succeeds only when it is empty. -/
structure FS where
  dirExists : Bool
  certFile : Option GoCert
  keyFile : Option GoPrivKey
  otherEntries : Nat
deriving Repr, DecidableEq

/-- In-memory fields of `CARoot` (`src/zcert.go` lines 34–39). -/
structure CARoot where
  cert : Option GoCert
  key : Option GoPrivKey
deriving Repr, DecidableEq

/-- An `FS` together with the rng position. -/
structure CAState where
  fs : FS
  ctr : Nat
deriving Repr, DecidableEq

/-- `CARoot.Exists` (`src/zcert.go` lines 153–156): stats the certificate
path returned by `StorePath`.  `spOk` says whether `StorePath` resolved to
a non-empty location (it returns `""` when no home directory is found, and
`os.Stat("…")` then fails). -/
def caExists (spOk : Bool) (fs : FS) : Bool :=
  spOk && fs.certFile.isSome

/-- `CARoot.Create` (`src/zcert.go` lines 61–150) for a run in which key
generation, encoding and the file writes succeed: errors when `StorePath`
is empty or a root already exists; otherwise `MkdirAll`s the directory,
generates a key (rng draw `ctr`), draws a 128-bit serial (draw `ctr+1`),
writes `rootCA-key.pem` then `rootCA.pem`, and keeps the template
certificate and key in memory. -/
def caCreate (rng : Nat → Nat) (uh : String) (spOk : Bool) (s : CAState) :
    Except String (CARoot × CAState) :=
  if spOk = false then
    .error "zcert.Create: cannot find a location to store the root certificate; set CAROOT"
  else if caExists spOk s.fs then
    .error "zcert.Create: CA root already exists"
  else
    let fs1 : FS := { s.fs with dirExists := true }
    let privKey : GoPrivKey := { draw := rng s.ctr }
    let serial := rng (s.ctr + 1)
    let tpl : GoCert :=
      { serialNumber := serial
        subject := rootSubject uh
        pubKey := pubOf privKey
        isCA := true }
    let signed := createCertificate tpl (pubOf privKey)
    let fs2 : FS := { fs1 with keyFile := some privKey, certFile := some signed }
    .ok ({ cert := some tpl, key := some privKey }, { fs := fs2, ctr := s.ctr + 2 })

/-- `CARoot.Load` (`src/zcert.go` lines 159–181): errors when `Exists` is
false; otherwise `tls.LoadX509KeyPair` reads both files, failing when
either is absent or when the key does not match the certificate's public
key, and the first certificate is parsed into memory. -/
def caLoad (spOk : Bool) (fs : FS) : Except String CARoot :=
  if caExists spOk fs = false then
    .error "zcert.Load: CA certificate does not exist"
  else
    match fs.certFile, fs.keyFile with
    | some c, some k =>
      if pubOf k = c.pubKey then
        .ok { cert := some c, key := some k }
      else
        .error "zcert.Load: private key does not match public key"
    | _, _ => .error "zcert.Load: open key pair"

/-- `CARoot.Delete` (`src/zcert.go` lines 184–206): nil and no change when
`Exists` is false; otherwise removes the certificate file, then the key
file, then the parent directory, failing (with the partial removal kept)
as soon as one `os.Remove` fails — the directory removal fails when other
entries remain. -/
def caDelete (spOk : Bool) (fs : FS) : Option String × FS :=
  if caExists spOk fs = false then
    (none, fs)
  else
    let fs1 : FS := { fs with certFile := none }
    match fs.keyFile with
    | none => (some "zcert.Delete: remove key file", fs1)
    | some _ =>
      let fs2 : FS := { fs1 with keyFile := none }
      if fs2.dirExists && fs2.otherEntries = 0 then
        (none, { fs2 with dirExists := false })
      else
        (some "zcert.Delete: remove directory", fs2)

/-- `New` (`src/zcert.go` lines 43–51): creates a new root when `Exists`
is false (reporting `created = true`), loads the existing one otherwise. -/
def caNew (rng : Nat → Nat) (uh : String) (spOk : Bool) (s : CAState) :
    Option String × CARoot × Bool × CAState :=
  if caExists spOk s.fs = false then
    match caCreate rng uh spOk s with
    | .ok (ca, s2) => (none, ca, true, s2)
    | .error e => (some e, { cert := none, key := none }, true, s)
  else
    match caLoad spOk s.fs with
    | .ok ca => (none, ca, false, s)
    | .error e => (some e, { cert := none, key := none }, false, s)

/-- A leaf TLS certificate issued by `MakeTLSCert`: serial number, the rng
position of the serial draw, the key draw, and the requested identifiers
and certificate kind. -/
structure TLSCert where
  serial : Nat
  serialIdx : Nat
  keyDraw : Nat
  hosts : List String
  isClient : Bool
deriving Repr, DecidableEq

/-- `MakeTLSCert(clientCert, hosts...)` (`src/zcert.go` lines 355–367) for
a run in which generation succeeds: `MakeCert` draws a serial (position
`ctr`) and then a key (position `ctr+1`). -/
def makeTLSCert (rng : Nat → Nat) (ctr : Nat) (clientCert : Bool)
    (hosts : List String) : TLSCert × Nat :=
  ({ serial := rng ctr
     serialIdx := ctr
     keyDraw := rng (ctr + 1)
     hosts := hosts
     isClient := clientCert }, ctr + 2)

/-- The `certs` map and rng position held by the closure `TLSConfig`
returns (`src/zcert.go` lines 336–352). -/
structure SelState where
  certs : List (String × TLSCert)
  ctr : Nat
deriving Repr, DecidableEq

/-- Lookup in the server-name → certificate map. -/
def lookupCert (m : List (String × TLSCert)) (name : String) : Option TLSCert :=
  match m with
  | [] => none
  | (k, v) :: rest => if k = name then some v else lookupCert rest name

/-- The `GetCertificate` callback installed by `TLSConfig` (`src/zcert.go`
lines 339–350), for runs in which issuance succeeds: a lookup keyed on
`hello.ServerName`; on a miss, `MakeTLSCert(false, serverName)` issues a
certificate which is stored in the map before being returned. -/
def getCertificate (rng : Nat → Nat) (st : SelState) (serverName : String) :
    TLSCert × SelState :=
  match lookupCert st.certs serverName with
  | some c => (c, st)
  | none =>
    let r := makeTLSCert rng st.ctr false [serverName]
    (r.1, { certs := st.certs ++ [(serverName, r.1)], ctr := r.2 })

/-- States reachable through the callback: every stored certificate was
issued for exactly its key, as a server certificate. -/
def SelInv (st : SelState) : Prop :=
  ∀ p ∈ st.certs, p.2.hosts = [p.1] ∧ p.2.isClient = false

end Zcert

namespace Truststore

/-- A certificate in the Windows "ROOT" system store as seen by
`deleteCertsWithSerial` (`src/truststore/ts_nonunix.go`): what matters is
the result of `x509.ParseCertificate` on its encoded bytes — `none` for a
parse failure or nil serial, `some n` for a certificate whose serial
number is `n`. -/
abbrev WinStoreEntry := Option Nat

/-- `windowsRootStore.deleteCertsWithSerial` (`ts_nonunix.go` lines
147–179) for a run in which the native enumeration, duplication and
deletion calls all succeed: enumerates the store, deletes every
certificate whose parsed serial equals `serial`, and reports whether any
was deleted (`deletedAny`), with a nil error. -/
def deleteCertsWithSerial (store : List WinStoreEntry) (serial : Nat) :
    Bool × Option String :=
  (store.any (fun e => e = some serial), none)

/-- `Windows.Uninstall` (`ts_nonunix.go` lines 85–101) for a run in which
the store opens and enumeration completes.  Mirrors the source faithfully,
including the final lines: when nothing was deleted the code assigns
`err = fmt.Errorf("truststore.Windows: no certs found")` and then executes
`return nil`, discarding that assignment. -/
def windowsUninstall (store : List WinStoreEntry) (caSerial : Nat) :
    Option String :=
  let res := deleteCertsWithSerial store caSerial
  match res.2 with
  | some e => some ("truststore.Windows: delete cert: " ++ e)
  | none =>
    let deletedAny := res.1
    let _err : Option String :=
      if deletedAny = false then some "truststore.Windows: no certs found" else none
    none

end Truststore

/-!
Models of the Go standard-library parsers that `MakeCert`'s identifier
classification dispatches on (`net.ParseIP`, `net/mail.ParseAddress`,
`net/url.Parse`).  They are transcribed from the Go standard library
(current behaviour: dotted-quad fields may not have leading zeros and
IPv6 zone identifiers are rejected).
-/

namespace Gostd

/-- Go `net`'s `dtoi`: decimal prefix of `s`; fails when there is no digit
or when the value reaches `big = 0xFFFFFF`.  Returns the value and the
number of characters consumed. -/
def dtoiGo : List Char → Nat → Nat → Option (Nat × Nat)
  | [], n, i => if i = 0 then none else some (n, i)
  | c :: rest, n, i =>
    if c.isDigit then
      let n2 := n * 10 + (c.toNat - 48)
      if 0xFFFFFF ≤ n2 then none else dtoiGo rest n2 (i + 1)
    else if i = 0 then none
    else some (n, i)

/-- `dtoi` entry point. -/
def dtoi (s : List Char) : Option (Nat × Nat) := dtoiGo s 0 0

/-- Value of a hexadecimal digit character. -/
def hexVal (c : Char) : Option Nat :=
  if c.isDigit then some (c.toNat - 48)
  else if 97 ≤ c.toNat && c.toNat ≤ 102 then some (c.toNat - 97 + 10)
  else if 65 ≤ c.toNat && c.toNat ≤ 70 then some (c.toNat - 65 + 10)
  else none

/-- Go `net`'s `xtoi`: hexadecimal prefix of `s`, same failure rules as
`dtoi`. -/
def xtoiGo : List Char → Nat → Nat → Option (Nat × Nat)
  | [], n, i => if i = 0 then none else some (n, i)
  | c :: rest, n, i =>
    match hexVal c with
    | some v =>
      let n2 := n * 16 + v
      if 0xFFFFFF ≤ n2 then none else xtoiGo rest n2 (i + 1)
    | none => if i = 0 then none else some (n, i)

/-- `xtoi` entry point. -/
def xtoi (s : List Char) : Option (Nat × Nat) := xtoiGo s 0 0

/-- One dotted-quad field of `parseIPv4`: a decimal value at most 255
with no leading zero. -/
def parseV4Field (s : List Char) : Option (Nat × List Char) :=
  match dtoi s with
  | none => none
  | some (n, c) =>
    if 0xFF < n then none
    else if 1 < c && s.head? = some '0' then none
    else some (n, s.drop c)

/-- A `.` followed by a dotted-quad field. -/
def expectDotField (s : List Char) : Option (Nat × List Char) :=
  match s with
  | '.' :: rest => parseV4Field rest
  | _ => none

/-- The 16-byte IPv4-in-IPv6 representation `net.IPv4` builds. -/
def v4InV6 (a b c d : Nat) : List Nat :=
  [0, 0, 0, 0, 0, 0, 0, 0, 0, 0, 0xFF, 0xFF, a, b, c, d]

/-- Go `net`'s `parseIPv4`: exactly four dot-separated decimal fields,
each at most 255, consuming the whole string. -/
def parseIPv4 (s : List Char) : Option (List Nat) :=
  (parseV4Field s).bind fun fa =>
  (expectDotField fa.2).bind fun fb =>
  (expectDotField fb.2).bind fun fc =>
  (expectDotField fc.2).bind fun fd =>
  if fd.2.isEmpty then some (v4InV6 fa.1 fb.1 fc.1 fd.1) else none

/-- The field loop of Go `net`'s `parseIPv6`.  State: remaining input,
number of bytes filled (`i`), the byte position of a `::` if one was seen,
and the bytes filled so far.  Each iteration fills at least two bytes, so
fuel 9 suffices for the at most eight iterations with `i < 16`. -/
def parseIPv6Loop (fuel : Nat) (s : List Char) (i : Nat) (ell : Option Nat)
    (acc : List Nat) : Option (List Nat × Nat × Option Nat × List Char) :=
  match fuel with
  | 0 => none
  | fuel + 1 =>
    if 16 ≤ i then some (acc, i, ell, s)
    else
      match xtoi s with
      | none => none
      | some (n, c) =>
        if 0xFFFF < n then none
        else if (s.drop c).head? = some '.' then
          if (ell = none && i ≠ 12) || 16 < i + 4 then none
          else
            match parseIPv4 s with
            | none => none
            | some ip4 => some (acc ++ ip4.drop 12, i + 4, ell, [])
        else
          let acc2 := acc ++ [n / 256, n % 256]
          let i2 := i + 2
          match s.drop c with
          | [] => some (acc2, i2, ell, [])
          | ':' :: rest =>
            match rest with
            | [] => none
            | ':' :: rest2 =>
              if ell ≠ none then none
              else
                match rest2 with
                | [] => some (acc2, i2, some i2, [])
                | _ => parseIPv6Loop fuel rest2 i2 (some i2) acc2
            | _ => parseIPv6Loop fuel rest i2 ell acc2
          | _ => none

/-- Go `net`'s `parseIPv6`: hexadecimal groups separated by `:`, at most
one `::`, optionally ending in an embedded dotted quad; returns the 16
address bytes. -/
def parseIPv6 (s : List Char) : Option (List Nat) :=
  match s with
  | ':' :: ':' :: [] => some (List.replicate 16 0)
  | _ =>
    let start : List Char × Option Nat :=
      match s with
      | ':' :: ':' :: rest => (rest, some 0)
      | _ => (s, none)
    match parseIPv6Loop 9 start.1 0 start.2 [] with
    | none => none
    | some (acc, i, ell, sRem) =>
      if sRem.isEmpty = false then none
      else if i < 16 then
        match ell with
        | none => none
        | some e => some (acc.take e ++ List.replicate (16 - i) 0 ++ acc.drop e)
      else
        match ell with
        | some _ => none
        | none => some acc

/-- The dispatch loop of `net.ParseIP`: the first `.` selects the IPv4
parser, the first `:` the IPv6 parser; a string with neither is not an IP
address. -/
def parseIPChars (orig : List Char) : List Char → Option (List Nat)
  | [] => none
  | c :: rest =>
    if c = '.' then parseIPv4 orig
    else if c = ':' then parseIPv6 orig
    else parseIPChars orig rest

/-- `net.ParseIP` (with zone identifiers rejected, as in current Go). -/
def netParseIP (s : String) : Option (List Nat) :=
  parseIPChars s.data s.data

/-- RFC 5322 `VCHAR` as Go `net/mail`'s `isVchar` accepts it: printable
ASCII or any multi-byte rune. -/
def isVchar (c : Char) : Bool :=
  (33 ≤ c.toNat && c.toNat ≤ 126) || 128 ≤ c.toNat

/-- Go `net/mail`'s `isAtext` with `permissive = false`: `.` only when
`dot` is set, the RFC 5322 specials excluded, everything else per
`isVchar`. -/
def isAtext (dot : Bool) (c : Char) : Bool :=
  if c = '.' then dot
  else if c = '(' || c = ')' || c = '[' || c = ']' || c = ';' || c = '@'
      || c = '\\' || c = ',' then false
  else if c = '<' || c = '>' || c = '"' || c = ':' then false
  else isVchar c

/-- `dotAtomText` contains `..` somewhere. -/
def hasDoubleDot : List Char → Bool
  | '.' :: '.' :: _ => true
  | _ :: rest => hasDoubleDot rest
  | [] => false

/-- Go `net/mail`'s `(*addrParser).consumeAtom(dot := true,
permissive := false)`: the longest atext run, rejected when empty or when
it starts or ends with a dot or contains `..`. -/
def consumeAtom (s : List Char) : Option (List Char × List Char) :=
  let atom := s.takeWhile (isAtext true)
  if atom.isEmpty then none
  else if atom.head? = some '.' || atom.getLast? = some '.' || hasDoubleDot atom then none
  else some (atom, s.drop atom.length)

/-- `net/mail`'s whitespace skip (space and tab). -/
def skipSpace (s : List Char) : List Char :=
  s.dropWhile fun c => c = ' ' || c = '\t'

/-- Go `net/mail`'s `consumeAddrSpec` restricted to dot-atom local parts
(quoted-string local parts are omitted: a quoted local part is returned
unquoted by Go, so its `Address` never equals the raw input and the
classifier condition in `MakeCert` is unaffected).  Spaces are allowed
around the `@`, as in Go. -/
def consumeAddrSpec (s : List Char) : Option (List Char × List Char) :=
  let s1 := skipSpace s
  (consumeAtom s1).bind fun lp =>
  match lp.2 with
  | '@' :: r2 =>
    (consumeAtom (skipSpace r2)).bind fun dm =>
    some (lp.1 ++ '@' :: dm.1, dm.2)
  | _ => none

/-- The `Address` field produced by `mail.ParseAddress` for inputs that
are a bare addr-spec; display-name, angle-bracket and comment forms are
omitted since for every such form the parsed `Address` differs from the
raw input, leaving `MakeCert`'s condition `err == nil && email.Address == h`
unchanged. -/
def mailParseAddress (h : String) : Option String :=
  match consumeAddrSpec h.data with
  | some (addr, rest) =>
    if (skipSpace rest).isEmpty then some (String.mk addr) else none
  | none => none

/-- The email test of the classifier chain:
`mail.ParseAddress(h)` succeeds and its `Address` equals `h` exactly. -/
def emailExactMatch (h : String) : Bool :=
  match mailParseAddress h with
  | some addr => addr = h
  | none => false

/-- The fields of `net/url.URL` the classifier can observe. -/
structure GoURL where
  scheme : String
  opaquePart : String
  host : String
  path : String
  forceQuery : Bool
  rawQuery : String
  fragment : String
deriving Repr, DecidableEq

/-- `stringContainsCTLByte`: an ASCII control byte (below space, or DEL)
somewhere in the string. -/
def containsCTL (s : List Char) : Bool :=
  s.any fun c => c.toNat < 32 || c.toNat = 127

/-- Go `net/url`'s `getScheme`: letters may start a scheme; digits, `+`,
`-`, `.` may continue one; a `:` ends it (erroring when it comes first);
any other character means the whole string has no scheme. -/
def getSchemeAux (orig : List Char) : List Char → List Char → Except String (List Char × List Char)
  | _, [] => .ok ([], orig)
  | acc, c :: rest =>
    if c.isAlpha then getSchemeAux orig (acc ++ [c]) rest
    else if c.isDigit || c = '+' || c = '-' || c = '.' then
      if acc.isEmpty then .ok ([], orig) else getSchemeAux orig (acc ++ [c]) rest
    else if c = ':' then
      if acc.isEmpty then .error "missing protocol scheme"
      else .ok (acc, rest)
    else .ok ([], orig)

/-- `getScheme` entry point. -/
def getScheme (s : List Char) : Except String (List Char × List Char) :=
  getSchemeAux s [] s

/-- Split at the first occurrence of `sep` (Go `strings.Cut`): before and
after, the separator removed; `none` when absent. -/
def cutFirst (s : List Char) (sep : Char) : Option (List Char × List Char) :=
  match s with
  | [] => none
  | c :: rest =>
    if c = sep then some ([], rest)
    else (cutFirst rest sep).map fun p => (c :: p.1, p.2)

/-- Go `net/url`'s `validOptionalPort`: empty, or `:` followed by decimal
digits only. -/
def validOptionalPort (port : List Char) : Bool :=
  match port with
  | [] => true
  | ':' :: digits => digits.all Char.isDigit
  | _ => false

/-- An ASCII character Go's `shouldEscape(c, encodeHost)` leaves
unescaped — the characters `unescape` accepts verbatim in a host. -/
def validHostChar (c : Char) : Bool :=
  if c = '!' || c = '$' || c = '&' || c.toNat = 39 || c = '(' || c = ')'
      || c = '*' || c = '+' || c = ',' || c = ';' || c = '=' || c = ':'
      || c = '[' || c = ']' || c = '<' || c = '>' || c = '"' then true
  else c.isAlphanum || c = '-' || c = '_' || c = '.' || c = '~'

/-- `unescape(host, encodeHost)`: validates and decodes `%XX` escapes
(in a host only non-ASCII bytes and `%25` may be escaped) and rejects
ASCII characters that must be escaped in a host. -/
def unescapeHost : List Char → Option (List Char)
  | [] => some []
  | '%' :: rest =>
    match rest with
    | h1 :: h2 :: rest2 =>
      match Gostd.hexVal h1, Gostd.hexVal h2 with
      | some v1, some v2 =>
        if v1 < 8 && v1 * 16 + v2 ≠ 0x25 then none
        else (unescapeHost rest2).map fun t => Char.ofNat (v1 * 16 + v2) :: t
      | _, _ => none
    | _ => none
  | c :: rest =>
    if c.toNat < 128 && validHostChar c = false then none
    else (unescapeHost rest).map fun t => c :: t

/-- Index of the last occurrence of `c`. -/
def lastIndexOfAux (c : Char) : List Char → Nat → Option Nat → Option Nat
  | [], _, best => best
  | x :: rest, i, best =>
    lastIndexOfAux c rest (i + 1) (if x = c then some i else best)

/-- `strings.LastIndex` for a single character. -/
def lastIndexOf (s : List Char) (c : Char) : Option Nat :=
  lastIndexOfAux c s 0 none

/-- Go `net/url`'s `parseHost`: a bracketed IPv6 literal must close its
bracket and may carry a valid optional port after it (its `%25` zone
escapes go through the same escape rules); otherwise the part after the
last `:` must be a valid optional port; then the host is unescaped. -/
def parseHost (host : List Char) : Option (List Char) :=
  match host with
  | '[' :: _ =>
    match lastIndexOf host ']' with
    | none => none
    | some i =>
      if validOptionalPort (host.drop (i + 1)) = false then none
      else unescapeHost host
  | _ =>
    match lastIndexOf host ':' with
    | none => unescapeHost host
    | some i =>
      if validOptionalPort (host.drop i) = false then none
      else unescapeHost host

/-- A character Go's `validUserinfo` accepts. -/
def validUserinfoChar (c : Char) : Bool :=
  c.isAlphanum || c = '-' || c = '.' || c = '_' || c = ':' || c = '~'
    || c = '!' || c = '$' || c = '&' || c.toNat = 39 || c = '(' || c = ')'
    || c = '*' || c = '+' || c = ',' || c = ';' || c = '=' || c = '%' || c = '@'

/-- Go `net/url`'s `parseAuthority`: the host is the part after the last
`@`; anything before it must be valid userinfo. -/
def parseAuthority (authority : List Char) : Option (List Char) :=
  match lastIndexOf authority '@' with
  | none => parseHost authority
  | some i =>
    (parseHost (authority.drop (i + 1))).bind fun host =>
    if (authority.take i).all validUserinfoChar then some host else none

/-- Every `%` is followed by two hexadecimal digits (`unescape` in path,
query and fragment modes errors only on malformed escapes). -/
def validEscapes : List Char → Bool
  | [] => true
  | '%' :: rest =>
    match rest with
    | h1 :: h2 :: rest2 =>
      match Gostd.hexVal h1, Gostd.hexVal h2 with
      | some _, some _ => validEscapes rest2
      | _, _ => false
    | _ => false
  | _ :: rest => validEscapes rest

/-- `strings.ToLower` restricted to ASCII, which covers every character
`getScheme` admits (letters, digits, `+`, `-`, `.`). -/
def lowerASCII (s : List Char) : List Char :=
  s.map fun c => if 65 ≤ c.toNat && c.toNat ≤ 90 then Char.ofNat (c.toNat + 32) else c

/-- Go `net/url`'s `parse(rawURL, viaRequest := false)` (fragment already
split off).  The `path` field stores the raw (still escaped) text; the
decoded form is irrelevant to the classifier. -/
def parseNoFrag (rawURL : List Char) : Except String GoURL :=
  if containsCTL rawURL then .error "net/url: invalid control character in URL"
  else if rawURL = ['*'] then
    .ok { scheme := "", opaquePart := "", host := "", path := "*",
          forceQuery := false, rawQuery := "", fragment := "" }
  else
    match getScheme rawURL with
    | .error e => .error e
    | .ok (schemeChars, rest0) =>
      let scheme := String.mk (lowerASCII schemeChars)
      let qsplit : List Char × Bool × List Char :=
        if rest0.getLast? = some '?' && cutFirst rest0.dropLast '?' = none then
          (rest0.dropLast, true, [])
        else
          match cutFirst rest0 '?' with
          | none => (rest0, false, [])
          | some p => (p.1, false, p.2)
      let rest := qsplit.1
      if rest.head? = some '/' then
        let hasAuth := (scheme ≠ "" || rest.take 3 ≠ ['/', '/', '/']) && rest.take 2 = ['/', '/']
        if hasAuth then
          let afterTwo := rest.drop 2
          let asplit : List Char × List Char :=
            match cutFirst afterTwo '/' with
            | none => (afterTwo, [])
            | some p => (p.1, '/' :: p.2)
          match parseAuthority asplit.1 with
          | none => .error "net/url: invalid authority"
          | some host =>
            if validEscapes asplit.2 then
              .ok { scheme := scheme, opaquePart := "", host := String.mk host,
                    path := String.mk asplit.2, forceQuery := qsplit.2.1,
                    rawQuery := String.mk qsplit.2.2, fragment := "" }
            else .error "invalid URL escape"
        else
          if validEscapes rest then
            .ok { scheme := scheme, opaquePart := "", host := "",
                  path := String.mk rest, forceQuery := qsplit.2.1,
                  rawQuery := String.mk qsplit.2.2, fragment := "" }
          else .error "invalid URL escape"
      else
        if scheme ≠ "" then
          .ok { scheme := scheme, opaquePart := String.mk rest, host := "",
                path := "", forceQuery := qsplit.2.1,
                rawQuery := String.mk qsplit.2.2, fragment := "" }
        else
          let segment := match cutFirst rest '/' with
            | none => rest
            | some p => p.1
          if segment.contains ':' then
            .error "first path segment in URL cannot contain colon"
          else if validEscapes rest then
            .ok { scheme := "", opaquePart := "", host := "",
                  path := String.mk rest, forceQuery := qsplit.2.1,
                  rawQuery := String.mk qsplit.2.2, fragment := "" }
          else .error "invalid URL escape"

/-- `url.Parse`: splits the fragment off at the first `#`, parses the
remainder, then validates the fragment's escapes. -/
def urlParse (raw : String) : Except String GoURL :=
  let cut := cutFirst raw.data '#'
  let u := match cut with | none => raw.data | some p => p.1
  let frag := match cut with | none => ([] : List Char) | some p => p.2
  match parseNoFrag u with
  | .error e => .error e
  | .ok url =>
    if validEscapes frag then .ok { url with fragment := String.mk frag }
    else .error "invalid URL escape"

end Gostd

namespace Zcert

/-- The kind of subject-alternative-name entry an identifier becomes. -/
inductive SANKind where
  | ip | email | uri | dns
deriving Repr, DecidableEq

/-- The classification chain of `MakeCert` (`src/zcert.go` lines
284–294), one identifier at a time: IP literal, else exact-match email,
else URI with non-empty scheme and host, else DNS name. -/
def classifyHost (h : String) : SANKind :=
  if (Gostd.netParseIP h).isSome then .ip
  else if Gostd.emailExactMatch h then .email
  else
    match Gostd.urlParse h with
    | .ok u => if u.scheme ≠ "" && u.host ≠ "" then .uri else .dns
    | .error _ => .dns

/-- The four subject-alternative-name lists of the leaf template
(`tpl.IPAddresses`, `tpl.EmailAddresses`, `tpl.URIs`, `tpl.DNSNames`). -/
structure SANs where
  ipAddresses : List (List Nat)
  emailAddresses : List String
  uris : List Gostd.GoURL
  dnsNames : List String
deriving Repr, DecidableEq

/-- The empty template lists. -/
def emptySANs : SANs :=
  { ipAddresses := [], emailAddresses := [], uris := [], dnsNames := [] }

/-- One iteration of the host loop in `MakeCert`: the if/else-if chain
appends the identifier (or its parsed form) to the matching list. -/
def addHost (t : SANs) (h : String) : SANs :=
  match Gostd.netParseIP h with
  | some ip => { t with ipAddresses := t.ipAddresses ++ [ip] }
  | none =>
    if Gostd.emailExactMatch h then
      { t with emailAddresses := t.emailAddresses ++ [h] }
    else
      match Gostd.urlParse h with
      | .ok u =>
        if u.scheme ≠ "" && u.host ≠ "" then { t with uris := t.uris ++ [u] }
        else { t with dnsNames := t.dnsNames ++ [h] }
      | .error _ => { t with dnsNames := t.dnsNames ++ [h] }

/-- The whole host loop of `MakeCert`. -/
def addHosts (hosts : List String) : SANs :=
  hosts.foldl addHost emptySANs

/-- Result of a Go call that may return normally, return an error, or
panic. -/
inductive GoOutcome (α : Type) where
  | ok (a : α)
  | fail (e : String)
  | panicked (msg : String)
deriving Repr, DecidableEq

/-- Did the call return normally? -/
def GoOutcome.isOk {α : Type} : GoOutcome α → Bool
  | .ok _ => true
  | _ => false

/-- `x509.ExtKeyUsage` values `MakeCert` assigns. -/
inductive EKU where
  | clientAuth | serverAuth | codeSigning | emailProtection
deriving Repr, DecidableEq

/-- The leaf certificate `MakeCert` builds and signs. -/
structure LeafCert where
  serialNumber : Nat
  subject : GoSubject
  sans : SANs
  extKeyUsage : List EKU
  pubKey : Nat
deriving Repr, DecidableEq

/-- `MakeCert` (`src/zcert.go` lines 257–332) with the root already
loaded, for a run in which serial and key generation, signing and the
writes to `out` succeed.  The source has no check for an empty `hosts`
list: with `clientCert` the expression `hosts[0]` (line 298) raises an
index-out-of-range panic when the list is empty, and without it the
function continues and issues a certificate with no identifier
entries. -/
def makeCert (rng : Nat → Nat) (ctr : Nat) (uh : String) (clientCert : Bool)
    (hosts : List String) : GoOutcome (LeafCert × Nat) :=
  let serial := rng ctr
  let sans := addHosts hosts
  let base : GoSubject :=
    { organization := ["zcert development certificate"]
      organizationalUnit := [uh]
      commonName := "" }
  match clientCert, hosts with
  | true, [] => .panicked "runtime error: index out of range [0] with length 0"
  | true, h :: _ =>
    let eku0 := [EKU.clientAuth, EKU.serverAuth]
    let eku :=
      if sans.emailAddresses.isEmpty then eku0
      else eku0 ++ [EKU.codeSigning, EKU.emailProtection]
    .ok ({ serialNumber := serial, subject := { base with commonName := h },
           sans := sans, extKeyUsage := eku, pubKey := rng (ctr + 1) }, ctr + 2)
  | false, _ =>
    let eku0 :=
      if sans.ipAddresses.isEmpty = false || sans.dnsNames.isEmpty = false then
        [EKU.serverAuth]
      else []
    let eku :=
      if sans.emailAddresses.isEmpty then eku0
      else eku0 ++ [EKU.codeSigning, EKU.emailProtection]
    .ok ({ serialNumber := serial, subject := base, sans := sans,
           extKeyUsage := eku, pubKey := rng (ctr + 1) }, ctr + 2)

end Zcert

namespace Truststore

/-- A value in the property list exported by
`security trust-settings-export` as `howett.net/plist` unmarshals it into
`interface\x7b\x7d` values: unsigned integers, byte strings (`<data>`),
nested dictionaries, strings, or anything else. -/
inductive PVal where
  | uint (n : Nat)
  | bytes (b : List Nat)
  | dict (entries : List (String × PVal))
  | str (s : String)
  | other
deriving Repr

/-- Lookup in an unmarshalled dictionary. -/
def pLookup (l : List (String × PVal)) (k : String) : Option PVal :=
  match l with
  | [] => none
  | kv :: rest => if kv.1 = k then some kv.2 else pLookup rest k

/-- Map assignment `m[k] = v` on an unmarshalled dictionary. -/
def setKey (l : List (String × PVal)) (k : String) (v : PVal) : List (String × PVal) :=
  if l.any (fun kv => kv.1 = k) then
    l.map fun kv => if kv.1 = k then (k, v) else kv
  else l ++ [(k, v)]

/-- The fixed `trustSettings` fragment (`ts_darwin.go` lines 26–51),
parsed once at package initialisation; its exact content is irrelevant to
the control flow modelled here. -/
def trustSettingsFragment : PVal := .str "sslServer and basicX509 policies"

/-- How a call into the Go runtime ends for the Darwin backend:
a normal return (`ok`/`fail`), `log.Fatalln` (uncatchable process
termination), or a panic from a failed type assertion. -/
inductive DarwinOutcome where
  | ok
  | fail (e : String)
  | fatal (msg : String)
  | panicked (msg : String)
deriving Repr, DecidableEq

/-- The environment a `Darwin.Install` run observes: the outcome of each
external command and file operation, and the exported trust-settings
property list. -/
structure DarwinEnv where
  addCertFails : Option String
  tempFileFails : Option String
  exportFails : Option String
  readFails : Option String
  parseFails : Bool
  plistRoot : List (String × PVal)
  marshalFails : Option String
  writeFails : Option String
  importFails : Option String
  rootSubjectDER : List Nat

/-- The `for key := range trustList` loop of `Darwin.Install`
(`ts_darwin.go` lines 103–114), iterating the map in a fixed order: every
visited entry is asserted to be a dictionary (`none` = panic), entries
without an `issuerName` are skipped, `issuerName` is asserted to be a byte
string, and the first entry matching the root subject gets the
`trustSettings` fragment assigned, ending the loop. -/
def patchTrustList (subj : List Nat) :
    List (String × PVal) → Option (List (String × PVal))
  | [] => some []
  | (k, v) :: rest =>
    match v with
    | .dict entry =>
      match pLookup entry "issuerName" with
      | none => (patchTrustList subj rest).map fun t => (k, v) :: t
      | some (.bytes b) =>
        if b = subj then
          some ((k, .dict (setKey entry "trustSettings" trustSettingsFragment)) :: rest)
        else (patchTrustList subj rest).map fun t => (k, v) :: t
      | some _ => none
    | _ => none

/-- `Darwin.Install` (`src/truststore/ts_darwin.go` lines 64–133).
Faithful to the source, including its two slips: the `plist.Unmarshal`
error at line 94 is formatted but not returned (so a parse failure leaves
`plistRoot` as the zero map and execution continues), and an unsupported
`trustVersion` is handled by `log.Fatalln` (line 100) rather than an
error return.  The `trustVersion` and `trustList` map accesses are Go
type assertions and panic when the key is absent or of another type. -/
def darwinInstall (env : DarwinEnv) : DarwinOutcome :=
  match env.addCertFails with
  | some e => .fail e
  | none =>
  match env.tempFileFails with
  | some e => .fail e
  | none =>
  match env.exportFails with
  | some e => .fail e
  | none =>
  match env.readFails with
  | some e => .fail ("read trust settings: " ++ e)
  | none =>
    let plistRoot := if env.parseFails then [] else env.plistRoot
    match pLookup plistRoot "trustVersion" with
    | some (.uint v) =>
      if v ≠ 1 then .fatal "ERROR: unsupported trust settings version:"
      else
        match pLookup plistRoot "trustList" with
        | some (.dict trustList) =>
          match patchTrustList env.rootSubjectDER trustList with
          | none => .panicked "interface conversion"
          | some _patched =>
            match env.marshalFails with
            | some e => .fail e
            | none =>
            match env.writeFails with
            | some e => .fail e
            | none =>
            match env.importFails with
            | some e => .fail e
            | none => .ok
        | _ => .panicked "interface conversion"
    | _ => .panicked "interface conversion"

/-- Did the Darwin call return to its caller (normally or with an
error), as opposed to terminating the process or panicking? -/
def DarwinOutcome.returned : DarwinOutcome → Bool
  | .ok => true
  | .fail _ => true
  | _ => false

/-- A trust-settings entry whose shape matches what the loop asserts:
a dictionary whose `issuerName`, if present, is a byte string. -/
def entryOkay (v : PVal) : Bool :=
  match v with
  | .dict entry =>
    match pLookup entry "issuerName" with
    | none => true
    | some (.bytes _) => true
    | some _ => false
  | _ => false

/-- The exported property list has `trustVersion = 1` (as an unsigned
integer) and a `trustList` dictionary all of whose entries have the
asserted shape. -/
def wellShapedRoot (root : List (String × PVal)) : Bool :=
  (match pLookup root "trustVersion" with
   | some (.uint 1) => true
   | _ => false) &&
  (match pLookup root "trustList" with
   | some (.dict trustList) => trustList.all fun kv => entryOkay kv.2
   | _ => false)

/-- The presence of escalation mechanisms `privCmd` probes
(`truststore.go` lines 60–76): running as uid 0, a `sudo` binary, a
`doas` binary. -/
structure PrivEnv where
  isRoot : Bool
  hasSudo : Bool
  hasDoas : Bool
deriving Repr, DecidableEq

/-- A spawned command: `Path` and `Args` (with `Args[0]` the program
name), as in `os/exec.Cmd`. -/
structure GoCmd where
  path : String
  args : List String
deriving Repr, DecidableEq

/-- `exec.Command(name, arg...)`. -/
def execCommand (name : String) (args : List String) : GoCmd :=
  { path := name, args := name :: args }

/-- `privCmd` (`truststore.go` lines 60–76); `warned` is the state of the
`privWarning` `sync.Once`.  Returns the command to run, the new once
state, and whether the warning was printed by this call: direct execution
as root, else wrapped with sudo, else with doas; with none of those the
command runs unprivileged and the warning fires if it never has. -/
def privCmd (env : PrivEnv) (warned : Bool) (c0 : String) (crest : List String) :
    GoCmd × Bool × Bool :=
  if env.isRoot then (execCommand c0 crest, warned, false)
  else if env.hasSudo then
    (execCommand "sudo" ("--prompt=Sudo password:" :: "--" :: c0 :: crest), warned, false)
  else if env.hasDoas then
    (execCommand "doas" ("--" :: c0 :: crest), warned, false)
  else
    (execCommand c0 crest, true, !warned)

/-- Combined output and failure status of a spawned command
(`cmd.CombinedOutput()`). -/
structure RunResult where
  out : String
  failed : Bool
deriving Repr, DecidableEq

/-- Does `needle` occur as a contiguous run of `hay`? -/
def listContains (needle hay : List Char) : Bool :=
  match hay with
  | [] => needle.isEmpty
  | _ :: rest => needle.isPrefixOf hay || listContains needle rest

/-- `bytes.Contains(out, []byte("SEC_ERROR_READ_ONLY"))`. -/
def hasReadOnlyMarker (out : String) : Bool :=
  listContains "SEC_ERROR_READ_ONLY".data out.data

/-- What one `execCertutil` call did: its final result, the new state of
the once-flag, whether the warning fired during the call, and the
commands it spawned, in order. -/
structure ExecLog where
  result : RunResult
  warnedAfter : Bool
  warnedNow : Bool
  spawned : List GoCmd
deriving Repr, DecidableEq

/-- `NSS.execCertutil` (`src/truststore/nss.go` lines 120–131): run the
command; if it failed with `SEC_ERROR_READ_ONLY` in its combined output
and the platform is not Windows, rebuild the same command through
`privCmd` (`privCmd(cmd.Path)` with the original `Args[1:]` appended) and
run it once more.  `run` is the oracle giving each spawned command's
result. -/
def execCertutil (goos : String) (env : PrivEnv) (run : GoCmd → RunResult)
    (warned : Bool) (cmd : GoCmd) : ExecLog :=
  if (run cmd).failed && hasReadOnlyMarker (run cmd).out && goos ≠ "windows" then
    { result := run { (privCmd env warned cmd.path []).1 with
                      args := (privCmd env warned cmd.path []).1.args ++ cmd.args.tail }
      warnedAfter := (privCmd env warned cmd.path []).2.1
      warnedNow := (privCmd env warned cmd.path []).2.2
      spawned := [cmd, { (privCmd env warned cmd.path []).1 with
                         args := (privCmd env warned cmd.path []).1.args ++ cmd.args.tail }] }
  else
    { result := run cmd, warnedAfter := warned, warnedNow := false, spawned := [cmd] }

/-- The escalated command `execCertutil`'s retry spawns (it does not
depend on the once-flag). -/
def escalateCmd (env : PrivEnv) (p : String) (as : List String) : GoCmd :=
  let pc := (privCmd env false p []).1
  { pc with args := pc.args ++ as }

/-- A sequence of `execCertutil` calls in one process, threading the
`privWarning` once-flag: returns the final flag and how many times the
warning was printed. -/
def runCertutilCalls (goos : String) (env : PrivEnv) (run : GoCmd → RunResult) :
    Bool → List GoCmd → Bool × Nat
  | warned, [] => (warned, 0)
  | warned, c :: cs =>
    let log := execCertutil goos env run warned c
    let rest := runCertutilCalls goos env run log.warnedAfter cs
    (rest.1, (if log.warnedNow then 1 else 0) + rest.2)

end Truststore

/-! ## Theorems -/

namespace Zcert

/-- Folding `Append` over a `MaxSize = 0` group collects exactly the
non-nil errors, in order, after whatever the group already holds. -/
theorem foldl_append_errs (results : List (Option String)) (g : GoGroup)
    (hmax : g.maxSize = 0) :
    (results.foldl (fun g r => (GoGroup.append g r).1) g).errs
      = g.errs ++ results.reduceOption ∧
    (results.foldl (fun g r => (GoGroup.append g r).1) g).maxSize = 0 := by
  induction results generalizing g with
  | nil => simp [List.reduceOption, *]
  | cons r rs ih =>
    cases r with
    | none =>
      simpa [GoGroup.append, List.reduceOption] using ih g hmax
    | some s =>
      have := ih { g with errs := g.errs ++ [s], nerrs := g.nerrs + 1 } (by simpa using hmax)
      simp only [List.foldl_cons, GoGroup.append, hmax] at *
      simpa [List.reduceOption_cons_of_some] using this

end Zcert

namespace Zcert

/-- C7: the trust-store fan-out of `Install`/`Uninstall` fails with an
error when no backend was discovered; otherwise every backend's result is
appended and the aggregate error is nil exactly when every backend
succeeded, and otherwise carries each failing backend's error, in
order. -/
theorem install_fanout_aggregate (results : List (Option String)) :
    (results = [] →
      installFanout results = some (.plain "no compatible truststores found")) ∧
    (results ≠ [] →
      ((installFanout results = none ↔ results.reduceOption = []) ∧
       ∀ g, installFanout results = some (.group g) →
         g.errs = results.reduceOption)) := by
  have herrs := foldl_append_errs results (NewGroup 0) rfl
  constructor
  · intro h; subst h; simp [installFanout]
  · intro hne
    have hlist : results.isEmpty = false := by
      cases results with
      | nil => exact absurd rfl hne
      | cons a l => rfl
    have hfan : installFanout results
        = (GoGroup.errorOrNil
            (results.foldl (fun g r => (GoGroup.append g r).1) (NewGroup 0))).map .group := by
      simp [installFanout, hlist]
    have hGerrs : (results.foldl (fun g r => (GoGroup.append g r).1) (NewGroup 0)).errs
        = results.reduceOption := by
      simpa [NewGroup] using herrs.1
    by_cases hredo : results.reduceOption = []
    · have hnil : GoGroup.errorOrNil
          (results.foldl (fun g r => (GoGroup.append g r).1) (NewGroup 0)) = none := by
        simp [GoGroup.errorOrNil, GoGroup.len, hGerrs, hredo]
      refine ⟨by simp [hfan, hnil, hredo], ?_⟩
      intro g hg
      rw [hfan, hnil] at hg
      simp at hg
    · have hlen : (results.foldl (fun g r => (GoGroup.append g r).1) (NewGroup 0)).errs.length ≠ 0 := by
        simp [hGerrs]
        exact hredo
      have hsome : GoGroup.errorOrNil
          (results.foldl (fun g r => (GoGroup.append g r).1) (NewGroup 0))
            = some (results.foldl (fun g r => (GoGroup.append g r).1) (NewGroup 0)) := by
        simp [GoGroup.errorOrNil, GoGroup.len, hlen]
      refine ⟨by simp [hfan, hsome, hredo], ?_⟩
      intro g hg
      rw [hfan, hsome] at hg
      simp only [Option.map_some'] at hg
      cases hg
      exact hGerrs

/-- C7 witness: a discovered pair of backends of which one fails yields a
non-nil aggregate error. -/
theorem install_fanout_aggregate_witness :
    ([some "boom", none] : List (Option String)) ≠ [] ∧
    ¬(installFanout [some "boom", none] = none) := by
  have hne : ([some "boom", none] : List (Option String)) ≠ [] := by simp
  have h := ((install_fanout_aggregate [some "boom", none]).2 hne).1
  exact ⟨hne, fun hnil => by simpa using h.mp hnil⟩

end Zcert

namespace Truststore

/-- C5: for a run in which enumeration of the Windows root store
completes and no certificate's serial matches, `deleteCertsWithSerial`
reports `deletedAny = false` — and `Windows.Uninstall` nevertheless
returns a nil error, because the source assigns the "no certs found"
error to `err` and then returns the literal `nil`. -/
theorem windows_uninstall_notfound_returns_nil :
    deleteCertsWithSerial [some 7, none] 5 = (false, none) ∧
    windowsUninstall [some 7, none] 5 = none := by
  decide

end Truststore

namespace Zcert

/-- C4: `MakeCert` performs no emptiness check on its identifier list:
with a loaded root, a call with no identifiers and `clientCert = false`
succeeds (building and signing a leaf with no identifier entries), and a
call with no identifiers and `clientCert = true` panics evaluating
`hosts[0]`; neither returns an error. -/
theorem makeCert_empty_hosts :
    (makeCert (fun n => n) 0 "user@host" false []).isOk = true ∧
    makeCert (fun n => n) 0 "user@host" true []
      = .panicked "runtime error: index out of range [0] with length 0" := by
  decide

end Zcert

namespace Zcert

/-- C10: `Exists` depends only on the certificate file (changing the key
file never changes it), so in a state holding only the orphan key file
`Exists` is false, `Delete` returns nil leaving the state — and the key
file — untouched, and `New` takes the create branch rather than load. -/
theorem exists_only_certfile (spOk : Bool) (fs : FS) (k : GoPrivKey)
    (rng : Nat → Nat) (uh : String) (ctr : Nat) :
    (∀ kf, caExists spOk { fs with keyFile := kf } = caExists spOk fs) ∧
    (fs.certFile = none → fs.keyFile = some k →
      caExists spOk fs = false ∧
      caDelete spOk fs = (none, fs) ∧
      ∃ e ca s2, caNew rng uh spOk { fs := fs, ctr := ctr } = (e, ca, true, s2)) := by
  constructor
  · intro kf; rfl
  · intro hcert hkey
    have hex : caExists spOk fs = false := by
      simp [caExists, hcert]
    refine ⟨hex, ?_, ?_⟩
    · simp [caDelete, hex]
    · simp only [caNew, hex]
      cases hcr : caCreate rng uh spOk { fs := fs, ctr := ctr } with
      | ok p => exact ⟨none, p.1, p.2, by simp [hcr]⟩
      | error e => exact ⟨some e, { cert := none, key := none }, { fs := fs, ctr := ctr }, by simp [hcr]⟩

/-- C10 witness: a store holding only the key file. -/
theorem exists_only_certfile_witness :
    caExists true { dirExists := true, certFile := none, keyFile := some ⟨3⟩, otherEntries := 0 } = false ∧
    caDelete true { dirExists := true, certFile := none, keyFile := some ⟨3⟩, otherEntries := 0 }
      = (none, { dirExists := true, certFile := none, keyFile := some ⟨3⟩, otherEntries := 0 }) := by
  have h := (exists_only_certfile true
    { dirExists := true, certFile := none, keyFile := some ⟨3⟩, otherEntries := 0 }
    ⟨3⟩ (fun n => n) "u" 0).2 rfl rfl
  exact ⟨h.1, h.2.1⟩

end Zcert

namespace Zcert

/-- C3: when `Create` succeeds, `Load` over the resulting store (on a new
`CARoot` value) succeeds and yields a certificate with the same serial
number, subject and public key as the created one, and the very same
private key (hence the same signing capability). -/
theorem create_load_roundtrip (rng : Nat → Nat) (uh : String) (spOk : Bool)
    (s : CAState) (ca : CARoot) (s2 : CAState)
    (h : caCreate rng uh spOk s = .ok (ca, s2)) :
    ∃ c k c2 k2,
      ca.cert = some c ∧ ca.key = some k ∧
      caLoad spOk s2.fs = .ok { cert := some c2, key := some k2 } ∧
      c2.serialNumber = c.serialNumber ∧
      c2.subject = c.subject ∧
      c2.pubKey = c.pubKey ∧
      k2 = k := by
  have hsp : spOk = true := by
    cases spOk
    · simp [caCreate] at h
    · rfl
  subst hsp
  have hex : caExists true s.fs = false := by
    cases hx : caExists true s.fs
    · rfl
    · simp [caCreate, hx] at h
  rw [caCreate] at h
  rw [if_neg (by simp), if_neg (by simp [hex])] at h
  injection h with h
  injection h with hca hs2
  subst hca
  subst hs2
  refine ⟨_, _, _, _, rfl, rfl, ?_, rfl, rfl, rfl, rfl⟩
  simp [caLoad, caExists, createCertificate]

/-- C3 witness: a concrete creation in an empty store. -/
theorem create_load_roundtrip_witness :
    ∃ c k c2 k2,
      (CARoot.mk (some ⟨1, rootSubject "u", 0, true⟩) (some ⟨0⟩)).cert = some c ∧
      (CARoot.mk (some ⟨1, rootSubject "u", 0, true⟩) (some ⟨0⟩)).key = some k ∧
      caLoad true (CAState.mk ⟨true, some ⟨1, rootSubject "u", 0, true⟩, some ⟨0⟩, 0⟩ 2).fs
        = .ok { cert := some c2, key := some k2 } ∧
      c2.serialNumber = c.serialNumber ∧
      c2.subject = c.subject ∧
      c2.pubKey = c.pubKey ∧
      k2 = k :=
  create_load_roundtrip (fun n => n) "u" true ⟨⟨false, none, none, 0⟩, 0⟩
    (CARoot.mk (some ⟨1, rootSubject "u", 0, true⟩) (some ⟨0⟩))
    (CAState.mk ⟨true, some ⟨1, rootSubject "u", 0, true⟩, some ⟨0⟩, 0⟩ 2)
    (by rfl)

end Zcert

namespace Zcert

/-- C8: deleting when no root exists is a nil-error no-op; after a
successful `Create` (into a directory holding nothing else), `Delete`
returns nil having removed the certificate file, the key file and the
directory, and a subsequent `New` creates a brand-new root whose serial
differs from the deleted one (the serial draws are distinct positions of
the random stream). -/
theorem delete_then_new_fresh_serial (rng : Nat → Nat) (uh : String)
    (s0 : CAState) (hrng : Function.Injective rng)
    (hex : caExists true s0.fs = false)
    (hoe : s0.fs.otherEntries = 0) :
    (∀ spOk fs, caExists spOk fs = false → caDelete spOk fs = (none, fs)) ∧
    ∃ ca1 s1, caCreate rng uh true s0 = .ok (ca1, s1) ∧
      (caDelete true s1.fs).1 = none ∧
      (caDelete true s1.fs).2.certFile = none ∧
      (caDelete true s1.fs).2.keyFile = none ∧
      (caDelete true s1.fs).2.dirExists = false ∧
      ∃ ca2 s3,
        caNew rng uh true { fs := (caDelete true s1.fs).2, ctr := s1.ctr }
          = (none, ca2, true, s3) ∧
        ∀ c1 c2, ca1.cert = some c1 → ca2.cert = some c2 →
          c1.serialNumber ≠ c2.serialNumber := by
  constructor
  · intro spOk fs hfs
    simp [caDelete, hfs]
  · have hcr : caCreate rng uh true s0
        = .ok ({ cert := some { serialNumber := rng (s0.ctr + 1), subject := rootSubject uh,
                                pubKey := rng s0.ctr, isCA := true },
                 key := some { draw := rng s0.ctr } },
               { fs := { dirExists := true,
                         certFile := some { serialNumber := rng (s0.ctr + 1),
                                            subject := rootSubject uh,
                                            pubKey := rng s0.ctr, isCA := true },
                         keyFile := some { draw := rng s0.ctr },
                         otherEntries := s0.fs.otherEntries },
                 ctr := s0.ctr + 2 }) := by
      rw [caCreate]
      rw [if_neg (by simp), if_neg (by simp [hex])]
      rfl
    refine ⟨_, _, hcr, ?_⟩
    have hdel : caDelete true
        { dirExists := true,
          certFile := some { serialNumber := rng (s0.ctr + 1), subject := rootSubject uh,
                             pubKey := rng s0.ctr, isCA := true },
          keyFile := some { draw := rng s0.ctr },
          otherEntries := s0.fs.otherEntries }
        = (none, { dirExists := false, certFile := none, keyFile := none,
                   otherEntries := s0.fs.otherEntries }) := by
      simp [caDelete, caExists, hoe]
    refine ⟨by simp [hdel], by simp [hdel], by simp [hdel], by simp [hdel], ?_⟩
    rw [hdel]
    have hnew : caNew rng uh true
        { fs := { dirExists := false, certFile := none, keyFile := none,
                  otherEntries := s0.fs.otherEntries },
          ctr := s0.ctr + 2 }
        = (none,
           { cert := some { serialNumber := rng (s0.ctr + 2 + 1), subject := rootSubject uh,
                            pubKey := rng (s0.ctr + 2), isCA := true },
             key := some { draw := rng (s0.ctr + 2) } },
           true,
           { fs := { dirExists := true,
                     certFile := some { serialNumber := rng (s0.ctr + 2 + 1),
                                        subject := rootSubject uh,
                                        pubKey := rng (s0.ctr + 2), isCA := true },
                     keyFile := some { draw := rng (s0.ctr + 2) },
                     otherEntries := s0.fs.otherEntries },
             ctr := s0.ctr + 2 + 2 }) := by
      rw [caNew]
      rw [if_pos (by rfl)]
      rw [caCreate]
      rw [if_neg (by simp), if_neg (by simp [caExists])]
      rfl
    refine ⟨_, _, hnew, ?_⟩
    intro c1 c2 hc1 hc2
    injection hc1 with hc1
    injection hc2 with hc2
    subst hc1
    subst hc2
    simp only []
    intro hser
    have := hrng hser
    omega

/-- C8 witness: a concrete create–delete–create cycle from an empty
store. -/
theorem delete_then_new_fresh_serial_witness :
    caDelete true { dirExists := false, certFile := none, keyFile := none, otherEntries := 0 }
      = (none, { dirExists := false, certFile := none, keyFile := none, otherEntries := 0 }) := by
  have h := (delete_then_new_fresh_serial (fun n => n) "u"
    { fs := { dirExists := false, certFile := none, keyFile := none, otherEntries := 0 }, ctr := 0 }
    (fun a b hab => hab) (by rfl) (by rfl)).1
  exact h true _ (by rfl)

end Zcert

namespace Zcert

/-- Looking a key up after appending a fresh pair: the old map wins, the
new pair answers only its own key. -/
theorem lookupCert_append (m : List (String × TLSCert)) (k : String)
    (v : TLSCert) (name : String) :
    lookupCert (m ++ [(k, v)]) name
      = match lookupCert m name with
        | some c => some c
        | none => if k = name then some v else none := by
  induction m with
  | nil => simp [lookupCert]
  | cons p rest ih =>
    obtain ⟨a, b⟩ := p
    by_cases h : a = name <;> simp [lookupCert, h, ih]

/-- A successful lookup returns a stored pair. -/
theorem lookupCert_mem (m : List (String × TLSCert)) (name : String)
    (c : TLSCert) (h : lookupCert m name = some c) : (name, c) ∈ m := by
  induction m with
  | nil => simp [lookupCert] at h
  | cons p rest ih =>
    obtain ⟨a, b⟩ := p
    by_cases ha : a = name
    · subst ha
      simp [lookupCert] at h
      subst h
      exact List.mem_cons_self _ _
    · simp [lookupCert, ha] at h
      exact List.mem_cons_of_mem _ (ih h)

/-- A hit returns the stored certificate and leaves the state
untouched. -/
theorem getCertificate_hit (rng : Nat → Nat) (st : SelState) (name : String)
    (c : TLSCert) (h : lookupCert st.certs name = some c) :
    getCertificate rng st name = (c, st) := by
  simp [getCertificate, h]

/-- A miss issues for exactly the requested name, as a server
certificate. -/
theorem getCertificate_miss (rng : Nat → Nat) (st : SelState) (name : String)
    (h : lookupCert st.certs name = none) :
    (getCertificate rng st name).1.hosts = [name] ∧
    (getCertificate rng st name).1.isClient = false := by
  simp [getCertificate, h, makeTLSCert]

/-- C2: the callback returned by `TLSConfig` is a memoised lookup keyed
by server name: a miss issues a server certificate for exactly that name
and stores it before returning it; a hit returns the stored certificate
with no new issuance (the state, including the rng position, is
unchanged); repeating a lookup returns the same certificate; and a lookup
of a different name returns a distinct certificate. -/
theorem tlsConfig_memoization (rng : Nat → Nat) (st : SelState)
    (hinv : SelInv st) (name : String) :
    (lookupCert st.certs name = none →
      (getCertificate rng st name).1.hosts = [name] ∧
      (getCertificate rng st name).1.isClient = false ∧
      lookupCert (getCertificate rng st name).2.certs name
        = some (getCertificate rng st name).1) ∧
    (∀ c, lookupCert st.certs name = some c →
      getCertificate rng st name = (c, st)) ∧
    SelInv (getCertificate rng st name).2 ∧
    getCertificate rng (getCertificate rng st name).2 name
      = ((getCertificate rng st name).1, (getCertificate rng st name).2) ∧
    (∀ name2, name2 ≠ name →
      (getCertificate rng (getCertificate rng st name).2 name2).1
        ≠ (getCertificate rng st name).1) := by
  have hhosts1 : (getCertificate rng st name).1.hosts = [name] := by
    cases hl : lookupCert st.certs name with
    | none => simp [getCertificate, hl, makeTLSCert]
    | some c =>
      have := (hinv _ (lookupCert_mem _ _ _ hl)).1
      simpa [getCertificate, hl] using this
  have hstored : lookupCert (getCertificate rng st name).2.certs name
      = some (getCertificate rng st name).1 := by
    cases hl : lookupCert st.certs name with
    | none => simp [getCertificate, hl, lookupCert_append]
    | some c => simp [getCertificate, hl]
  have hinv2 : SelInv (getCertificate rng st name).2 := by
    cases hl : lookupCert st.certs name with
    | none =>
      intro p hp
      simp only [getCertificate, hl] at hp
      rcases List.mem_append.mp hp with hold | hnew
      · exact hinv _ hold
      · simp at hnew
        subst hnew
        simp [makeTLSCert]
    | some c => simpa [getCertificate, hl] using hinv
  refine ⟨?_, ?_, hinv2, ?_, ?_⟩
  · intro hl
    exact ⟨hhosts1, (getCertificate_miss rng st name hl).2, hstored⟩
  · intro c hl
    exact getCertificate_hit rng st name c hl
  · exact getCertificate_hit rng _ name _ hstored
  · intro name2 hne
    have hhosts2 : (getCertificate rng (getCertificate rng st name).2 name2).1.hosts
        = [name2] := by
      cases hl2 : lookupCert (getCertificate rng st name).2.certs name2 with
      | none => exact (getCertificate_miss rng _ name2 hl2).1
      | some c2 =>
        rw [getCertificate_hit rng _ name2 c2 hl2]
        exact (hinv2 _ (lookupCert_mem _ _ _ hl2)).1
    intro heq
    rw [heq, hhosts1] at hhosts2
    injection hhosts2 with h1 h2
    exact hne h1.symm

/-- C2 witness: two lookups of the same name from a fresh callback return
the same certificate. -/
theorem tlsConfig_memoization_witness :
    getCertificate (fun n => n) (getCertificate (fun n => n) ⟨[], 0⟩ "a").2 "a"
      = ((getCertificate (fun n => n) ⟨[], 0⟩ "a").1,
         (getCertificate (fun n => n) ⟨[], 0⟩ "a").2) := by
  have h := tlsConfig_memoization (fun n => n) ⟨[], 0⟩
    (by intro p hp; simp at hp) "a"
  exact h.2.2.2.1

end Zcert

namespace Truststore

/-- The command `privCmd` builds does not depend on the state of the
once-flag. -/
theorem privCmd_cmd_indep (env : PrivEnv) (w : Bool) (c0 : String)
    (crest : List String) :
    (privCmd env w c0 crest).1 = (privCmd env false c0 crest).1 := by
  by_cases h1 : env.isRoot <;> by_cases h2 : env.hasSudo <;>
    by_cases h3 : env.hasDoas <;> simp [privCmd, h1, h2, h3]

/-- If the warning fired, the once-flag was clear and is now set; if it
did not fire, the flag is unchanged. -/
theorem execCertutil_warn_facts (goos : String) (env : PrivEnv)
    (run : GoCmd → RunResult) (w : Bool) (cmd : GoCmd) :
    ((execCertutil goos env run w cmd).warnedNow = true →
      w = false ∧ (execCertutil goos env run w cmd).warnedAfter = true) ∧
    ((execCertutil goos env run w cmd).warnedNow = false →
      (execCertutil goos env run w cmd).warnedAfter = w) := by
  unfold execCertutil
  split
  · unfold privCmd
    by_cases h1 : env.isRoot <;> by_cases h2 : env.hasSudo <;>
      by_cases h3 : env.hasDoas <;> simp [h1, h2, h3]
  · simp

/-- Across any sequence of `execCertutil` calls, the warning fires at
most once when the flag starts clear, and never when it is already
set. -/
theorem runCertutilCalls_warn_once (goos : String) (env : PrivEnv)
    (run : GoCmd → RunResult) (calls : List GoCmd) :
    ∀ w, (runCertutilCalls goos env run w calls).2
      ≤ if w then 0 else 1 := by
  induction calls with
  | nil => intro w; simp [runCertutilCalls]
  | cons c cs ih =>
    intro w
    have hf := execCertutil_warn_facts goos env run w c
    simp only [runCertutilCalls]
    cases hnow : (execCertutil goos env run w c).warnedNow
    · have hafter := hf.2 hnow
      simpa [hnow, hafter] using ih w
    · obtain ⟨hw, hafter⟩ := hf.1 hnow
      subst hw
      have := ih (runCertutilCalls goos env run true cs).1
      simp only [hnow, hafter, if_true]
      have h2 := ih true
      simp at h2
      simp [h2]

/-- C9: when a certutil invocation fails with `SEC_ERROR_READ_ONLY` in
its combined output on a non-Windows platform, exactly one retry is
spawned, carrying the identical underlying command wrapped for
escalation — run directly when already root, else under sudo, else under
doas; when no escalation program exists the retry runs unprivileged and
the warning fires only if it never has — and over any sequence of calls
in one process, the warning fires at most once. -/
theorem privilege_escalation_retry (goos : String) (env : PrivEnv)
    (run : GoCmd → RunResult) (warned : Bool) (p : String) (as : List String)
    (hgoos : goos ≠ "windows")
    (hfail : (run (execCommand p as)).failed = true)
    (hmark : hasReadOnlyMarker (run (execCommand p as)).out = true) :
    (execCertutil goos env run warned (execCommand p as)).spawned
      = [execCommand p as, escalateCmd env p as] ∧
    (env.isRoot = true → escalateCmd env p as = execCommand p as) ∧
    (env.isRoot = false → env.hasSudo = true →
      escalateCmd env p as
        = ⟨"sudo", "sudo" :: "--prompt=Sudo password:" :: "--" :: p :: as⟩) ∧
    (env.isRoot = false → env.hasSudo = false → env.hasDoas = true →
      escalateCmd env p as = ⟨"doas", "doas" :: "--" :: p :: as⟩) ∧
    (env.isRoot = false → env.hasSudo = false → env.hasDoas = false →
      escalateCmd env p as = execCommand p as ∧
      (execCertutil goos env run warned (execCommand p as)).warnedNow = !warned ∧
      (execCertutil goos env run warned (execCommand p as)).warnedAfter = true) ∧
    (∀ calls, (runCertutilCalls goos env run false calls).2 ≤ 1) := by
  refine ⟨?_, ?_, ?_, ?_, ?_, ?_⟩
  · unfold execCertutil
    rw [if_pos (by simp [hfail, hmark, hgoos])]
    simp only [escalateCmd, execCommand]
    rw [privCmd_cmd_indep]
    simp
  · intro h1; simp [escalateCmd, privCmd, execCommand, h1]
  · intro h1 h2; simp [escalateCmd, privCmd, execCommand, h1, h2]
  · intro h1 h2 h3; simp [escalateCmd, privCmd, execCommand, h1, h2, h3]
  · intro h1 h2 h3
    refine ⟨by simp [escalateCmd, privCmd, execCommand, h1, h2, h3], ?_, ?_⟩
    · unfold execCertutil
      rw [if_pos (by simp [hfail, hmark, hgoos])]
      simp [privCmd, h1, h2, h3]
    · unfold execCertutil
      rw [if_pos (by simp [hfail, hmark, hgoos])]
      simp [privCmd, h1, h2, h3]
  · intro calls
    simpa using runCertutilCalls_warn_once goos env run calls false

/-- C9 witness: a failing read-only invocation with no escalation
mechanism available. -/
theorem privilege_escalation_retry_witness :
    (execCertutil "linux" ⟨false, false, false⟩
        (fun _ => ⟨"SEC_ERROR_READ_ONLY", true⟩) false
        (execCommand "certutil" ["-A"])).spawned
      = [execCommand "certutil" ["-A"],
         escalateCmd ⟨false, false, false⟩ "certutil" ["-A"]] := by
  exact (privilege_escalation_retry "linux" ⟨false, false, false⟩
    (fun _ => ⟨"SEC_ERROR_READ_ONLY", true⟩) false "certutil" ["-A"]
    (by decide) (by rfl) (by decide)).1

end Truststore

namespace Truststore

/-- When every entry of the trust list has the asserted shape, the patch
loop completes without a failed type assertion. -/
theorem patchTrustList_isSome (subj : List Nat) (l : List (String × PVal))
    (h : l.all (fun kv => entryOkay kv.2) = true) :
    (patchTrustList subj l).isSome = true := by
  induction l with
  | nil => rfl
  | cons kv rest ih =>
    obtain ⟨k, v⟩ := kv
    simp only [List.all_cons, Bool.and_eq_true] at h
    obtain ⟨hv, hrest⟩ := h
    have ihh := fun hr => ih hr
    cases v with
    | dict entry =>
      simp only [entryOkay] at hv
      simp only [patchTrustList]
      cases hiss : pLookup entry "issuerName" with
      | none =>
        simp only [hiss]
        cases hpo : patchTrustList subj rest with
        | none => rw [hpo] at ihh; simpa using ihh hrest
        | some t => simp [hpo]
      | some pv =>
        simp only [hiss] at hv
        cases pv with
        | bytes b =>
          simp only [hiss]
          by_cases hb : b = subj
          · simp [hb]
          · simp only [if_neg hb]
            cases hpo : patchTrustList subj rest with
            | none => rw [hpo] at ihh; simpa using ihh hrest
            | some t => simp [hpo]
        | uint n => simp at hv
        | dict d => simp at hv
        | str a => simp at hv
        | other => simp at hv
    | uint n => simp [entryOkay] at hv
    | bytes b => simp [entryOkay] at hv
    | str a => simp [entryOkay] at hv
    | other => simp [entryOkay] at hv

/-- C6 (amended): when the exported trust-settings property list parses
and has the shape the code asserts (`trustVersion` equal to 1, a
`trustList` dictionary of well-shaped entries), `Darwin.Install` always
returns to its caller — normally or as an error value — and never
terminates the process or panics.  (The unamended claim is refuted by
`darwin_install_fatal_on_trust_version_two`.) -/
theorem darwin_install_returns_when_wellshaped (env : DarwinEnv)
    (hparse : env.parseFails = false)
    (hshape : wellShapedRoot env.plistRoot = true) :
    (darwinInstall env).returned = true := by
  unfold wellShapedRoot at hshape
  rw [Bool.and_eq_true] at hshape
  obtain ⟨hver, hlist⟩ := hshape
  unfold darwinInstall
  rw [hparse]
  cases env.addCertFails with
  | some e => rfl
  | none =>
  cases env.tempFileFails with
  | some e => rfl
  | none =>
  cases env.exportFails with
  | some e => rfl
  | none =>
  cases env.readFails with
  | some e => rfl
  | none =>
  simp only [Bool.false_eq_true, if_false]
  cases hv : pLookup env.plistRoot "trustVersion" with
  | none => rw [hv] at hver; simp at hver
  | some pv =>
    rw [hv] at hver
    cases pv with
    | uint n =>
      cases n with
      | zero => simp at hver
      | succ m =>
        cases m with
        | zero =>
          simp only [if_neg (by simp : ¬(1 : Nat) ≠ 1)]
          cases hl : pLookup env.plistRoot "trustList" with
          | none => rw [hl] at hlist; simp at hlist
          | some plv =>
            rw [hl] at hlist
            cases plv with
            | dict tl =>
              have hsome := patchTrustList_isSome env.rootSubjectDER tl hlist
              cases hp : patchTrustList env.rootSubjectDER tl with
              | none => rw [hp] at hsome; simp at hsome
              | some patched =>
                simp only [hp]
                cases env.marshalFails with
                | some e => rfl
                | none =>
                cases env.writeFails with
                | some e => rfl
                | none =>
                cases env.importFails with
                | some e => rfl
                | none => rfl
            | uint a => simp at hlist
            | bytes a => simp at hlist
            | str a => simp at hlist
            | other => simp at hlist
        | succ k => simp at hver
    | bytes b => simp at hver
    | dict d => simp at hver
    | str a => simp at hver
    | other => simp at hver

/-- C6 witness: a well-shaped exported property list with
`trustVersion = 1`. -/
theorem darwin_install_returns_witness :
    (darwinInstall
      { addCertFails := none, tempFileFails := none, exportFails := none,
        readFails := none, parseFails := false,
        plistRoot := [("trustVersion", .uint 1), ("trustList", .dict [])],
        marshalFails := none, writeFails := none, importFails := none,
        rootSubjectDER := [] }).returned = true := by
  exact darwin_install_returns_when_wellshaped _ rfl (by decide)

/-- C6 counterexample: with an exported property list whose
`trustVersion` is 2, `Darwin.Install` reaches `log.Fatalln` and
terminates the process instead of returning an error. -/
theorem darwin_install_fatal_on_trust_version_two :
    darwinInstall
      { addCertFails := none, tempFileFails := none, exportFails := none,
        readFails := none, parseFails := false,
        plistRoot := [("trustVersion", .uint 2)],
        marshalFails := none, writeFails := none, importFails := none,
        rootSubjectDER := [] }
      = .fatal "ERROR: unsupported trust settings version:" := by
  rfl

end Truststore

namespace Zcert

/-- The host loop of `MakeCert` with an arbitrary starting template:
each list receives, in order, exactly the identifiers (or their parsed
forms) its branch of the chain classifies. -/
theorem foldl_addHost (hs : List String) (t : SANs) :
    (hs.foldl addHost t).ipAddresses
      = t.ipAddresses ++ hs.filterMap Gostd.netParseIP ∧
    (hs.foldl addHost t).emailAddresses
      = t.emailAddresses ++ hs.filter (fun h => classifyHost h = .email) ∧
    (hs.foldl addHost t).uris
      = t.uris ++ hs.filterMap
          (fun h => if classifyHost h = .uri then (Gostd.urlParse h).toOption else none) ∧
    (hs.foldl addHost t).dnsNames
      = t.dnsNames ++ hs.filter (fun h => classifyHost h = .dns) := by
  induction hs generalizing t with
  | nil => simp
  | cons h rest ih =>
    simp only [List.foldl_cons]
    rcases hip : Gostd.netParseIP h with _ | ip
    case some =>
      have hcls : classifyHost h = .ip := by simp [classifyHost, hip]
      have hadd : addHost t h = { t with ipAddresses := t.ipAddresses ++ [ip] } := by
        simp [addHost, hip]
      rw [hadd]
      obtain ⟨i1, i2, i3, i4⟩ := ih { t with ipAddresses := t.ipAddresses ++ [ip] }
      refine ⟨?_, ?_, ?_, ?_⟩ <;>
        simp [i1, i2, i3, i4, hcls, hip, List.filterMap_cons, List.filter_cons]
    case none =>
      by_cases hm : Gostd.emailExactMatch h = true
      · have hcls : classifyHost h = .email := by simp [classifyHost, hip, hm]
        have hadd : addHost t h = { t with emailAddresses := t.emailAddresses ++ [h] } := by
          simp [addHost, hip, hm]
        rw [hadd]
        obtain ⟨i1, i2, i3, i4⟩ := ih { t with emailAddresses := t.emailAddresses ++ [h] }
        refine ⟨?_, ?_, ?_, ?_⟩ <;>
          simp [i1, i2, i3, i4, hcls, hip, List.filterMap_cons, List.filter_cons]
      · rcases hu : Gostd.urlParse h with e | u
        · have hcls : classifyHost h = .dns := by simp [classifyHost, hip, hm, hu]
          have hadd : addHost t h = { t with dnsNames := t.dnsNames ++ [h] } := by
            simp [addHost, hip, hm, hu]
          rw [hadd]
          obtain ⟨i1, i2, i3, i4⟩ := ih { t with dnsNames := t.dnsNames ++ [h] }
          refine ⟨?_, ?_, ?_, ?_⟩ <;>
            simp [i1, i2, i3, i4, hcls, hip, hu, List.filterMap_cons, List.filter_cons]
        · by_cases hs1 : u.scheme = ""
          · have hcls : classifyHost h = .dns := by
              simp [classifyHost, hip, hm, hu, hs1]
            have hadd : addHost t h = { t with dnsNames := t.dnsNames ++ [h] } := by
              simp [addHost, hip, hm, hu, hs1]
            rw [hadd]
            obtain ⟨i1, i2, i3, i4⟩ := ih { t with dnsNames := t.dnsNames ++ [h] }
            refine ⟨?_, ?_, ?_, ?_⟩ <;>
              simp [i1, i2, i3, i4, hcls, hip, hu, List.filterMap_cons, List.filter_cons]
          · by_cases hs2 : u.host = ""
            · have hcls : classifyHost h = .dns := by
                simp [classifyHost, hip, hm, hu, hs1, hs2]
              have hadd : addHost t h = { t with dnsNames := t.dnsNames ++ [h] } := by
                simp [addHost, hip, hm, hu, hs1, hs2]
              rw [hadd]
              obtain ⟨i1, i2, i3, i4⟩ := ih { t with dnsNames := t.dnsNames ++ [h] }
              refine ⟨?_, ?_, ?_, ?_⟩ <;>
                simp [i1, i2, i3, i4, hcls, hip, hu, List.filterMap_cons, List.filter_cons]
            · have hcls : classifyHost h = .uri := by
                simp [classifyHost, hip, hm, hu, hs1, hs2]
              have hadd : addHost t h = { t with uris := t.uris ++ [u] } := by
                simp [addHost, hip, hm, hu, hs1, hs2]
              rw [hadd]
              obtain ⟨i1, i2, i3, i4⟩ := ih { t with uris := t.uris ++ [u] }
              refine ⟨?_, ?_, ?_, ?_⟩ <;>
                simp [i1, i2, i3, i4, hcls, hip, hu, Except.toOption,
                      List.filterMap_cons, List.filter_cons]

/-- C1: `MakeCert` classifies each requested identifier independently and
in order — IP literal, else exact-match email address, else URI with
non-empty scheme and host, else DNS name — each template list receiving
exactly its identifiers in order; and concretely "10.0.0.1" is an IP
entry, "user@example.com" an email entry, "https://example.com/path" a
URI entry, and "example.com" and "*.example.com" DNS entries. -/
theorem makeCert_classification (hosts : List String) :
    (addHosts hosts).ipAddresses = hosts.filterMap Gostd.netParseIP ∧
    (addHosts hosts).emailAddresses
      = hosts.filter (fun h => classifyHost h = .email) ∧
    (addHosts hosts).uris
      = hosts.filterMap
          (fun h => if classifyHost h = .uri then (Gostd.urlParse h).toOption else none) ∧
    (addHosts hosts).dnsNames = hosts.filter (fun h => classifyHost h = .dns) ∧
    classifyHost "10.0.0.1" = .ip ∧
    classifyHost "user@example.com" = .email ∧
    classifyHost "https://example.com/path" = .uri ∧
    classifyHost "example.com" = .dns ∧
    classifyHost "*.example.com" = .dns := by
  obtain ⟨i1, i2, i3, i4⟩ := foldl_addHost hosts emptySANs
  refine ⟨?_, ?_, ?_, ?_, ?_, ?_, ?_, ?_, ?_⟩
  · simpa [addHosts, emptySANs] using i1
  · simpa [addHosts, emptySANs] using i2
  · simpa [addHosts, emptySANs] using i3
  · simpa [addHosts, emptySANs] using i4
  · decide
  · decide
  · decide
  · decide
  · decide

end Zcert
